import Mathlib

/-!
# FairHire anonymous-applicant service: a shallow embedding

This file embeds the Express/Mongoose backend of the FairHire job-application
intake service (`server.js`) in Lean 4 and proves the specified properties of
its five operations: submission (`POST /api/applicants`), anonymized listing
(`GET /api/applicants`), contact reveal (`GET /api/applicants/:id`), status
update (`PATCH /api/applicants/:id/status`), and the pagination contract.

Modelling conventions:
* The MongoDB collection is a `List Applicant` in insertion order; `save`
  appends, `findOne` takes the first match, `find(...).sort({submittedAt:-1})`
  is a stable descending sort.
* JavaScript strings are Lean `String`s; `trim` / `toLowerCase` are modelled
  character-wise (`strTrim` / `strLower`) so that all definitions evaluate in
  the kernel.  JS truthiness of a string is non-emptiness; truthiness of a
  number is being non-zero; an array is always truthy.  A missing field and an
  empty field behave identically under `!x` and are both modelled as `""`.
* JS numbers arriving in the JSON body (`experience`, the numeric query
  parameters) are modelled as exact rationals `ℚ`; the claims only involve
  values (0, 3, 50, 50.1, -1, ...) that IEEE doubles represent exactly.
* Randomness (`generateAnonymousId`) and the clock (`Date.now`) are modelled
  as explicit parameters `gid` / `now` of the create operation.
* A Mongo duplicate-key failure at `save` time (error code 11000) occurs, in
  the sequential model, exactly when the generated `anonymousId` already has a
  record (`anonymousId` is the schema's only `unique` index).
-/

/-- Character-wise model of JavaScript `String.prototype.trim`. -/
def strTrim (s : String) : String :=
  ⟨((s.data.dropWhile Char.isWhitespace).reverse.dropWhile Char.isWhitespace).reverse⟩

/-- Character-wise model of JavaScript `String.prototype.toLowerCase`. -/
def strLower (s : String) : String :=
  ⟨s.data.map Char.toLower⟩

/-- Test `chPre pat l` : does `l` start with `pat`? (helper for the regex model). -/
def chPre : List Char → List Char → Bool
  | [], _ => true
  | _ :: _, [] => false
  | a :: as, b :: bs => a == b && chPre as bs

/-- Test `chInf pat l` : does `pat` occur contiguously inside `l`?  This models
matching a plain-text pattern `pat` (no metacharacters) against `l` with an
unanchored JS `RegExp`. -/
def chInf (pat : List Char) : List Char → Bool
  | [] => pat.isEmpty
  | b :: bs => chPre pat (b :: bs) || chInf pat bs

/-- Case-insensitive substring test: the semantics of
`new RegExp(pat, 'i').test(s)` for a plain-text pattern, as used by the
`position` and `skills` filters. -/
def containsCI (pat s : String) : Bool :=
  chInf (strLower pat).data (strLower s).data

/-- Model of `validateEmail` from the source: the regex `^[^\s@]+@[^\s@]+\.[^\s@]+$`.
The whole string splits at a unique `@` into a non-empty local part and a
domain, neither containing whitespace or `@`, and the domain has a `.` that is
neither its first nor its last character (so both pieces `[^\s@]+` around the
dot are non-empty). -/
def validateEmail (email : String) : Bool :=
  match email.data.splitOn '@' with
  | [l, d] =>
    !l.isEmpty && l.all (fun c => !c.isWhitespace) && d.all (fun c => !c.isWhitespace)
      && ((d.dropLast).drop 1).contains '.'
  | _ => false

/-- The stripped phone characters: the source's
`phone.replace(/[\s\-\(\)]/g, '')`. -/
def stripPhone (phone : String) : List Char :=
  phone.data.filter (fun c => !(c.isWhitespace || c == '-' || c == '(' || c == ')'))

/-- The regex `^[\+]?[1-9][\d]{0,15}$` on the stripped characters. -/
def phoneCore : List Char → Bool
  | [] => false
  | c :: rest =>
    match (if c == '+' then rest else c :: rest) with
    | [] => false
    | d :: t => d.isDigit && d != '0' && t.all Char.isDigit && decide (t.length ≤ 15)

/-- Model of `validatePhone` from the source. -/
def validatePhone (phone : String) : Bool :=
  phoneCore (stripPhone phone)

/-- One document of the `applicants` collection (the Mongoose
`applicantSchema`): `anonymousId` (unique), contact fields `name`/`email`/
`phone`, professional fields, `submittedAt` (default `Date.now`, modelled as a
`Nat` tick), and `status` (default `"pending"`). -/
structure Applicant where
  anonymousId : String
  name : String
  email : String
  phone : String
  position : String
  experience : ℚ
  skills : List String
  education : String
  submittedAt : Nat
  status : String
deriving Repr, DecidableEq

/-- A JSON value as it appears in a response document (skills is the only
array field and holds strings). -/
inductive JVal
  | str (v : String)
  | num (v : ℚ)
  | arr (v : List String)
deriving Repr, DecidableEq

/-- The anonymized projection used by `GET /api/applicants`:
`{anonymousId:1, position:1, experience:1, skills:1, education:1,
submittedAt:1, status:1, _id:0}`. -/
def anonView (a : Applicant) : List (String × JVal) :=
  [("anonymousId", .str a.anonymousId), ("position", .str a.position),
   ("experience", .num a.experience), ("skills", .arr a.skills),
   ("education", .str a.education), ("submittedAt", .num (a.submittedAt : ℚ)),
   ("status", .str a.status)]

/-- The contact projection used by `GET /api/applicants/:id`:
`{name:1, email:1, phone:1, _id:0}`. -/
def contactView (a : Applicant) : List (String × JVal) :=
  [("name", .str a.name), ("email", .str a.email), ("phone", .str a.phone)]

/-- The `skills` field of a submission body: either an already-split array or
a comma-delimited string (`Array.isArray(skills) ? ... : ...`). -/
inductive SkillsInput
  | arr (l : List String)
  | str (s : String)
deriving Repr, DecidableEq

/-- JS falsiness of the `skills` body field: an array is always truthy, a
string is falsy exactly when empty. -/
def SkillsInput.falsy : SkillsInput → Bool
  | .arr _ => false
  | .str s => s.isEmpty

/-- The request body of `POST /api/applicants`.  String fields use `""` for
both "absent" and "empty" (identical behaviour under the `!field` check);
`experience` is the JSON number of the body. -/
structure SubmitReq where
  name : String
  email : String
  phone : String
  position : String
  experience : ℚ
  skills : SkillsInput
  education : String
deriving Repr, DecidableEq

/-- The skills normalization in `applicantData`:
`Array.isArray(skills) ? skills
: skills.split(',').map(s => s.trim()).filter(s => s.length > 0)`. -/
def processSkills : SkillsInput → List String
  | .arr l => l
  | .str s =>
    (((s.data.splitOn ',').map (fun cs => strTrim ⟨cs⟩))).filter (fun t => t.length > 0)

/-- The record built by the route (`applicantData`) combined with the schema
setters applied by Mongoose at `new Applicant(...)`: `trim` on the string
fields (idempotent over the route's own `.trim()`) and on each skills element,
`lowercase` on email, defaults `submittedAt := now` and `status := "pending"`,
and `anonymousId := gid` (the value of `generateAnonymousId()`). -/
def mkApplicant (req : SubmitReq) (gid : String) (now : Nat) : Applicant :=
  { anonymousId := gid
    name := strTrim req.name
    email := strLower (strTrim req.email)
    phone := strTrim req.phone
    position := strTrim req.position
    experience := req.experience
    skills := (processSkills req.skills).map strTrim
    education := strTrim req.education
    submittedAt := now
    status := "pending" }

/-- Outcome of `POST /api/applicants`: 400, 409, 201, or 500. -/
inductive CreateResult
  | badRequest (error : String)
  | conflict (error : String)
  | created (anonymousId : String) (message : String)
  | serverError (error : String)
deriving Repr, DecidableEq

/-- Route `POST /api/applicants`.  Steps of the source, in order: the
required-fields truthiness check, `validateEmail`, `validatePhone`, the
experience range check, build `applicantData`, the `(email, position)`
duplicate pre-check (`findOne`), then `save` — which raises the duplicate-key
error 11000 exactly when `gid` collides with a stored `anonymousId` (the only
unique index), and which the route's `catch` maps to a 500 response. -/
def createApplicant (req : SubmitReq) (gid : String) (now : Nat)
    (db : List Applicant) : CreateResult × List Applicant :=
  if req.name = "" ∨ req.email = "" ∨ req.phone = "" ∨ req.position = "" ∨
      req.experience = 0 ∨ req.skills.falsy = true ∨ req.education = "" then
    (.badRequest "All fields are required", db)
  else if validateEmail req.email = false then
    (.badRequest "Invalid email format", db)
  else if validatePhone req.phone = false then
    (.badRequest "Invalid phone number format", db)
  else if req.experience < 0 ∨ 50 < req.experience then
    (.badRequest "Experience must be between 0 and 50 years", db)
  else
    let a := mkApplicant req gid now
    match db.find? (fun b => b.email == a.email && b.position == a.position) with
    | some _ => (.conflict "You have already applied for this position", db)
    | none =>
      if db.any (fun b => b.anonymousId == a.anonymousId) then
        (.serverError "Duplicate application detected. Please try again.", db)
      else
        (.created gid "Application submitted successfully", db ++ [a])

/-- The document filter built by `GET /api/applicants` from the query
parameters, applied to one record.  `none` models an absent (or empty, hence
falsy) parameter.  `position` and each comma-separated `skills` term match as
case-insensitive substrings (`RegExp(_, 'i')`, `$in` over the array field);
the experience bounds are inclusive (`$gte`/`$lte` after `Number(...)`). -/
def matchesFilter (pos : Option String) (minE maxE : Option ℚ) (sk : Option String)
    (a : Applicant) : Bool :=
  (match pos with
   | none => true
   | some p => containsCI p a.position)
  && (match minE with
      | none => true
      | some m => decide (m ≤ a.experience))
  && (match maxE with
      | none => true
      | some m => decide (a.experience ≤ m))
  && (match sk with
      | none => true
      | some s =>
        ((s.data.splitOn ',').map (fun cs => strTrim ⟨cs⟩)).any
          (fun t => a.skills.any (fun el => containsCI t el)))

/-- Stable insertion of one record into a list sorted by `submittedAt`
descending. -/
def insertDesc (a : Applicant) : List Applicant → List Applicant
  | [] => [a]
  | b :: t => if a.submittedAt ≤ b.submittedAt then b :: insertDesc a t
              else a :: b :: t

/-- Model of `.sort({ submittedAt: -1 })`: stable sort, newest first. -/
def sortDesc (l : List Applicant) : List Applicant :=
  l.foldr insertDesc []

/-- The `pagination` object of the list response. -/
structure Pagination where
  page : Int
  limit : Int
  total : Nat
  totalPages : Nat
  hasNext : Bool
  hasPrev : Bool
deriving Repr, DecidableEq

/-- The 200 response of `GET /api/applicants`. -/
structure ListResult where
  data : List (List (String × JVal))
  pagination : Pagination
deriving Repr, DecidableEq

/-- Route `GET /api/applicants`.  `page`/`limit` are the parsed integer query
parameters (`none` = absent, so the destructuring defaults 1 / 10 apply);
`pageNum = Math.max(1, parseInt(page))`,
`limitNum = Math.min(50, Math.max(1, parseInt(limit)))`,
`skip = (pageNum - 1) * limitNum`; the matching documents are sorted by
`submittedAt` descending, skipped, limited, and projected through `anonView`;
`totalPages = Math.ceil(total / limitNum)`. -/
def listApplicants (db : List Applicant) (pos : Option String) (minE maxE : Option ℚ)
    (sk : Option String) (page limit : Option Int) : ListResult :=
  let pageNum : Int := max 1 (page.getD 1)
  let limitNum : Int := min 50 (max 1 (limit.getD 10))
  let skip : Nat := ((pageNum - 1) * limitNum).toNat
  let filtered := db.filter (matchesFilter pos minE maxE sk)
  let total := filtered.length
  let totalPages := (total + limitNum.toNat - 1) / limitNum.toNat
  { data := (((sortDesc filtered).drop skip).take limitNum.toNat).map anonView
    pagination :=
      { page := pageNum
        limit := limitNum
        total := total
        totalPages := totalPages
        hasNext := decide (pageNum < (totalPages : Int))
        hasPrev := decide (1 < pageNum) } }

/-- Outcome of `GET /api/applicants/:id`: 404 or 200. -/
inductive ContactResult
  | notFound (error : String)
  | found (data : List (String × JVal))
deriving Repr, DecidableEq

/-- Route `GET /api/applicants/:id`: `findOne({ anonymousId: id })` with the contact
projection; 404 when no record matches. -/
def getContact (db : List Applicant) (id : String) : ContactResult :=
  match db.find? (fun a => a.anonymousId == id) with
  | none => .notFound "Applicant not found"
  | some a => .found (contactView a)

/-- Outcome of `PATCH /api/applicants/:id/status`: 400, 404, or 200 with the
`{anonymousId, status}` projection of the updated document. -/
inductive UpdateResult
  | invalidStatus (error : String)
  | notFound (error : String)
  | ok (anonymousId : String) (status : String) (message : String)
deriving Repr, DecidableEq

/-- The `validStatuses` array of the status route. -/
def validStatuses : List String :=
  ["pending", "reviewed", "contacted", "rejected"]

/-- Model of `findOneAndUpdate({anonymousId: id}, {status: s})` on the stored list:
replace the `status` of the first matching record, leave everything else. -/
def updateFirstStatus (id s : String) : List Applicant → List Applicant
  | [] => []
  | a :: t =>
    if a.anonymousId = id then { a with status := s } :: t
    else a :: updateFirstStatus id s t

/-- Route `PATCH /api/applicants/:id/status`: the `!status ||
!validStatuses.includes(status)` check runs before any lookup; then
`findOneAndUpdate` with `{new: true, fields: {anonymousId:1, status:1}}`. -/
def updateStatus (db : List Applicant) (id s : String) :
    UpdateResult × List Applicant :=
  if s = "" ∨ s ∉ validStatuses then
    (.invalidStatus "Valid status is required: pending, reviewed, contacted, rejected", db)
  else
    match db.find? (fun a => a.anonymousId == id) with
    | none => (.notFound "Applicant not found", db)
    | some a => (.ok a.anonymousId s "Status updated successfully", updateFirstStatus id s db)

/-- The conjunction of the route's four validation guards: all fields truthy,
email and phone pass their regexes, experience within `[0, 50]`. -/
def passesValidation (req : SubmitReq) : Prop :=
  ¬ (req.name = "" ∨ req.email = "" ∨ req.phone = "" ∨ req.position = "" ∨
      req.experience = 0 ∨ req.skills.falsy = true ∨ req.education = "")
  ∧ validateEmail req.email = true
  ∧ validatePhone req.phone = true
  ∧ ¬ (req.experience < 0 ∨ 50 < req.experience)

instance (req : SubmitReq) : Decidable (passesValidation req) := by
  unfold passesValidation; infer_instance

/-- No two stored records share the `(email, position)` pair. -/
def pairUnique (db : List Applicant) : Prop :=
  db.Pairwise (fun a b => ¬ (a.email = b.email ∧ a.position = b.position))

/-- The sample submission of the spec's scenario: Jane Doe applying as an
Engineer. -/
def janeReq : SubmitReq :=
  { name := "Jane Doe"
    email := "jane@x.com"
    phone := "+12025550123"
    position := "Engineer"
    experience := 3
    skills := .str "Go,SQL"
    education := "BSc" }

/-- The stored record that submitting `janeReq` at tick 1 with generated id
`"APPX1"` produces. -/
def sampleApplicant : Applicant :=
  { anonymousId := "APPX1"
    name := "Jane Doe"
    email := "jane@x.com"
    phone := "+12025550123"
    position := "Engineer"
    experience := 3
    skills := ["Go", "SQL"]
    education := "BSc"
    submittedAt := 1
    status := "pending" }

/-- A second valid submission with a different `(email, position)` pair. -/
def bobReq : SubmitReq :=
  { name := "Bob Roe"
    email := "bob@y.org"
    phone := "+441632960111"
    position := "Designer"
    experience := 7
    skills := .str "Figma"
    education := "MA" }

/-- A Jane-like submission whose email differs only by case (the raw email
must still pass the regex, which runs before trimming) and whose other fields
all differ. -/
def janeDupReq : SubmitReq :=
  { name := "Janet Other"
    email := "Jane@X.com"
    phone := "+33123456789"
    position := "Engineer"
    experience := 9
    skills := .arr ["Rust"]
    education := "PhD" }

/-- An otherwise-valid submission whose name has a single character. -/
def shortNameReq : SubmitReq :=
  { janeReq with name := "J" }

/-! ## Helper lemmas -/

theorem chPre_self (l : List Char) : chPre l l = true := by
  induction l with
  | nil => rfl
  | cons c t ih => simp [chPre, ih]

theorem chInf_self (l : List Char) : chInf l l = true := by
  cases l with
  | nil => rfl
  | cons c t => simp [chInf, chPre_self]

/-- A plain pattern matches itself under the case-insensitive regex model. -/
theorem containsCI_self (s : String) : containsCI s s = true :=
  chInf_self _

theorem insertDesc_length (a : Applicant) (l : List Applicant) :
    (insertDesc a l).length = l.length + 1 := by
  induction l with
  | nil => rfl
  | cons b t ih => simp only [insertDesc]; split <;> simp [ih]

theorem sortDesc_cons (b : Applicant) (t : List Applicant) :
    sortDesc (b :: t) = insertDesc b (sortDesc t) := rfl

theorem sortDesc_length (l : List Applicant) : (sortDesc l).length = l.length := by
  induction l with
  | nil => rfl
  | cons b t ih => rw [sortDesc_cons, insertDesc_length, ih, List.length_cons]

/-- A record strictly newer than everything in `l` comes out first when the
appended list is sorted newest-first. -/
theorem sortDesc_append_newest (a : Applicant) (l : List Applicant)
    (h : ∀ b ∈ l, b.submittedAt < a.submittedAt) :
    sortDesc (l ++ [a]) = a :: sortDesc l := by
  have hfold : sortDesc (l ++ [a]) = l.foldr insertDesc [a] := by
    simp [sortDesc, List.foldr_append, insertDesc]
  rw [hfold]
  induction l with
  | nil => rfl
  | cons b t ih =>
    have hb : b.submittedAt < a.submittedAt := h b (by simp)
    have ht : ∀ x ∈ t, x.submittedAt < a.submittedAt := fun x hx => h x (by simp [hx])
    have htfold : t.foldr insertDesc [a] = a :: sortDesc t := ih ht (by
      simp [sortDesc, List.foldr_append, insertDesc])
    calc (b :: t).foldr insertDesc [a] = insertDesc b (t.foldr insertDesc [a]) := rfl
      _ = insertDesc b (a :: sortDesc t) := by rw [htfold]
      _ = a :: insertDesc b (sortDesc t) := by
          simp only [insertDesc]; rw [if_pos (Nat.le_of_lt hb)]
      _ = a :: sortDesc (b :: t) := by rw [sortDesc_cons]

theorem pairUnique_iff_mapped (l : List Applicant) :
    pairUnique l ↔
      (l.map (fun a => (a.email, a.position))).Pairwise
        (fun p q => ¬ (p.1 = q.1 ∧ p.2 = q.2)) := by
  unfold pairUnique
  exact (@List.pairwise_map Applicant (String × String) (fun a => (a.email, a.position))
    (fun p q => ¬ (p.1 = q.1 ∧ p.2 = q.2)) l).symm

theorem updateFirstStatus_map_pair (id s : String) (l : List Applicant) :
    (updateFirstStatus id s l).map (fun a => (a.email, a.position))
      = l.map (fun a => (a.email, a.position)) := by
  induction l with
  | nil => rfl
  | cons a t ih => simp only [updateFirstStatus]; split <;> simp [ih]

theorem pairUnique_updateFirstStatus (id s : String) (l : List Applicant)
    (h : pairUnique l) : pairUnique (updateFirstStatus id s l) := by
  rw [pairUnique_iff_mapped, updateFirstStatus_map_pair]
  exact (pairUnique_iff_mapped l).mp h

/-- When all four validation guards pass, no stored record shares the
normalized `(email, position)` pair, and the generated id is fresh, the
create route persists the new record and answers 201. -/
theorem createApplicant_success (db : List Applicant) (req : SubmitReq)
    (gid : String) (now : Nat) (hval : passesValidation req)
    (hdup : db.find? (fun b => b.email == (mkApplicant req gid now).email
        && b.position == (mkApplicant req gid now).position) = none)
    (hfresh : db.any (fun b => b.anonymousId == gid) = false) :
    createApplicant req gid now db
      = (.created gid "Application submitted successfully",
         db ++ [mkApplicant req gid now]) := by
  obtain ⟨h1, h2, h3, h4⟩ := hval
  unfold createApplicant
  rw [if_neg h1, if_neg (by simp [h2]), if_neg (by simp [h3]), if_neg h4]
  simp only [hdup]
  have hfresh' : db.any (fun b => b.anonymousId == (mkApplicant req gid now).anonymousId)
      = false := hfresh
  rw [if_neg (by simp [hfresh'])]

/-- When the guards pass but a stored record already has the normalized
`(email, position)` pair, the create route answers 409 and stores nothing. -/
theorem createApplicant_conflict (db : List Applicant) (req : SubmitReq)
    (gid : String) (now : Nat) (hval : passesValidation req) (x : Applicant)
    (hdup : db.find? (fun b => b.email == (mkApplicant req gid now).email
        && b.position == (mkApplicant req gid now).position) = some x) :
    createApplicant req gid now db
      = (.conflict "You have already applied for this position", db) := by
  obtain ⟨h1, h2, h3, h4⟩ := hval
  unfold createApplicant
  rw [if_neg h1, if_neg (by simp [h2]), if_neg (by simp [h3]), if_neg h4]
  simp only [hdup]

/-- When the guards pass, the pair pre-check finds nothing, but the generated
id collides with a stored `anonymousId`, the `save` raises the duplicate-key
error and the route answers 500, storing nothing. -/
theorem createApplicant_duplicateKey (db : List Applicant) (req : SubmitReq)
    (gid : String) (now : Nat) (hval : passesValidation req)
    (hdup : db.find? (fun b => b.email == (mkApplicant req gid now).email
        && b.position == (mkApplicant req gid now).position) = none)
    (hcoll : db.any (fun b => b.anonymousId == gid) = true) :
    createApplicant req gid now db
      = (.serverError "Duplicate application detected. Please try again.", db) := by
  obtain ⟨h1, h2, h3, h4⟩ := hval
  unfold createApplicant
  rw [if_neg h1, if_neg (by simp [h2]), if_neg (by simp [h3]), if_neg h4]
  simp only [hdup]
  have hcoll' : db.any (fun b => b.anonymousId == (mkApplicant req gid now).anonymousId)
      = true := hcoll
  rw [if_pos (by simp [hcoll'])]

theorem updateFirstStatus_length (id s : String) (l : List Applicant) :
    (updateFirstStatus id s l).length = l.length := by
  induction l with
  | nil => rfl
  | cons a t ih => simp only [updateFirstStatus]; split <;> simp [ih]

/-- Index-wise frame property of `findOneAndUpdate`: every record keeps all
fields except possibly `status`; a record whose `anonymousId` differs from the
queried one is untouched; a changed `status` is the new value. -/
theorem updateFirstStatus_frame (id s : String) (l : List Applicant) (i : Nat)
    (a a' : Applicant) (ha : l[i]? = some a)
    (ha' : (updateFirstStatus id s l)[i]? = some a') :
    (a'.anonymousId = a.anonymousId ∧ a'.name = a.name ∧ a'.email = a.email
      ∧ a'.phone = a.phone ∧ a'.position = a.position
      ∧ a'.experience = a.experience ∧ a'.skills = a.skills
      ∧ a'.education = a.education ∧ a'.submittedAt = a.submittedAt)
    ∧ (a.anonymousId ≠ id → a' = a)
    ∧ (a'.status = a.status ∨ a'.status = s) := by
  induction l generalizing i with
  | nil => simp at ha
  | cons b t ih =>
    simp only [updateFirstStatus] at ha'
    by_cases hb : b.anonymousId = id
    · rw [if_pos hb] at ha'
      cases i with
      | zero =>
        simp at ha ha'
        subst ha
        subst ha'
        refine ⟨⟨rfl, rfl, rfl, rfl, rfl, rfl, rfl, rfl, rfl⟩, fun hne => absurd hb hne, Or.inr rfl⟩
      | succ j =>
        simp only [List.getElem?_cons_succ] at ha ha'
        rw [ha'] at ha
        cases ha
        exact ⟨⟨rfl, rfl, rfl, rfl, rfl, rfl, rfl, rfl, rfl⟩, fun _ => rfl, Or.inl rfl⟩
    · rw [if_neg hb] at ha'
      cases i with
      | zero =>
        simp at ha ha'
        subst ha
        subst ha'
        exact ⟨⟨rfl, rfl, rfl, rfl, rfl, rfl, rfl, rfl, rfl⟩, fun _ => rfl, Or.inl rfl⟩
      | succ j =>
        simp only [List.getElem?_cons_succ] at ha ha'
        exact ih j ha ha'

/-- Bound `total ≤ ⌈total / L⌉ * L`: a page index past `totalPages` skips the whole
result set. -/
theorem le_ceil_mul (total L : Nat) (hL : 0 < L) :
    total ≤ (total + L - 1) / L * L := by
  rcases Nat.eq_zero_or_pos total with h0 | h0
  · simp [h0]
  · have h1 : (total + L - 1) < ((total + L - 1) / L + 1) * L :=
      (Nat.div_lt_iff_lt_mul hL).mp (Nat.lt_succ_self _)
    have h2 : ((total + L - 1) / L + 1) * L = (total + L - 1) / L * L + L := by ring
    rw [h2] at h1
    generalize (total + L - 1) / L * L = A at h1 ⊢
    omega

/-! ## Claim theorems -/

/-- C1: For every stored set of applicant records and every filter combination
(position, minExperience, maxExperience, skills, page, limit), every item
returned by the anonymized list operation (`GET /api/applicants`) carries
exactly the keys `anonymousId`, `position`, `experience`, `skills`,
`education`, `submittedAt`, `status` — in particular never a `name`, `email`,
or `phone` field. -/
theorem listAnonymized_no_contact_fields (db : List Applicant)
    (pos : Option String) (minE maxE : Option ℚ) (sk : Option String)
    (page limit : Option Int) (item : List (String × JVal))
    (hmem : item ∈ (listApplicants db pos minE maxE sk page limit).data) :
    item.map Prod.fst
      = ["anonymousId", "position", "experience", "skills", "education",
         "submittedAt", "status"]
    ∧ "name" ∉ item.map Prod.fst ∧ "email" ∉ item.map Prod.fst
    ∧ "phone" ∉ item.map Prod.fst := by
  simp only [listApplicants] at hmem
  rw [List.mem_map] at hmem
  obtain ⟨a, -, rfl⟩ := hmem
  have hk : (anonView a).map Prod.fst
      = ["anonymousId", "position", "experience", "skills", "education",
         "submittedAt", "status"] := rfl
  refine ⟨hk, ?_, ?_, ?_⟩ <;> rw [hk] <;> decide

theorem listAnonymized_no_contact_fields_witness :
    (anonView sampleApplicant).map Prod.fst
      = ["anonymousId", "position", "experience", "skills", "education",
         "submittedAt", "status"]
    ∧ "name" ∉ (anonView sampleApplicant).map Prod.fst
    ∧ "email" ∉ (anonView sampleApplicant).map Prod.fst
    ∧ "phone" ∉ (anonView sampleApplicant).map Prod.fst :=
  listAnonymized_no_contact_fields [sampleApplicant] none none none none none none
    (anonView sampleApplicant) (by decide)

/-- C2: The contact-reveal operation (`GET /api/applicants/:id`) returns
exactly the fields `{name, email, phone}` when some record carries the
requested `anonymousId`, and fails with the 404 not-found response when no
record matches; its output never contains `position`, `experience`, `skills`,
`education`, `status`, or `submittedAt`. -/
theorem getContact_reveals_contact_only (db : List Applicant) (id : String) :
    ((∃ a ∈ db, a.anonymousId = id) →
      ∃ kvs, getContact db id = .found kvs
        ∧ kvs.map Prod.fst = ["name", "email", "phone"]
        ∧ ∀ k ∈ kvs.map Prod.fst,
            k ∉ ["position", "experience", "skills", "education", "status",
                 "submittedAt"])
    ∧ ((∀ a ∈ db, a.anonymousId ≠ id) →
      getContact db id = .notFound "Applicant not found") := by
  constructor
  · rintro ⟨a, ha, rfl⟩
    have hsome : (db.find? (fun b => b.anonymousId == a.anonymousId)).isSome :=
      List.find?_isSome.mpr ⟨a, ha, by simp⟩
    obtain ⟨b, hb⟩ := Option.isSome_iff_exists.mp hsome
    refine ⟨contactView b, by simp [getContact, hb], rfl, ?_⟩
    intro k hk
    simp [contactView] at hk
    rcases hk with rfl | rfl | rfl <;> decide
  · intro h
    have hnone : db.find? (fun b => b.anonymousId == id) = none :=
      List.find?_eq_none.mpr (fun x hx => by simp [h x hx])
    simp [getContact, hnone]

theorem getContact_reveals_contact_only_witness :
    (∃ kvs, getContact [sampleApplicant] "APPX1" = .found kvs
        ∧ kvs.map Prod.fst = ["name", "email", "phone"]
        ∧ ∀ k ∈ kvs.map Prod.fst,
            k ∉ ["position", "experience", "skills", "education", "status",
                 "submittedAt"])
    ∧ getContact [sampleApplicant] "NOPE" = .notFound "Applicant not found" :=
  ⟨(getContact_reveals_contact_only [sampleApplicant] "APPX1").1
      ⟨sampleApplicant, by simp, rfl⟩,
   (getContact_reveals_contact_only [sampleApplicant] "NOPE").2 (by decide)⟩

/-- C10: The status-update operation validates the status value before any
lookup: for every stored state and every id — including ids that match no
record — a status outside {pending, reviewed, contacted, rejected} yields the
400 invalid-status response and leaves the store unchanged. -/
theorem updateStatus_invalid_checked_first (db : List Applicant) (id s : String)
    (hs : s ∉ validStatuses) :
    updateStatus db id s
      = (.invalidStatus "Valid status is required: pending, reviewed, contacted, rejected",
         db) := by
  unfold updateStatus
  rw [if_pos (Or.inr hs)]

theorem updateStatus_invalid_checked_first_witness :
    updateStatus [sampleApplicant] "NOPE" "approved"
      = (.invalidStatus "Valid status is required: pending, reviewed, contacted, rejected",
         [sampleApplicant]) :=
  updateStatus_invalid_checked_first [sampleApplicant] "NOPE" "approved" (by decide)

/-- C4 (the code deviates from the claim here): the boundary behaviour of the
experience field on otherwise-valid submissions.  Because the required-fields
guard tests JS truthiness (`!experience`), the JSON number 0 is falsy and a
submission with `experience = 0` is rejected 400 with "All fields are
required" — even though every field is present — instead of being accepted as
the claim and the route's own range check (`experience < 0 || experience >
50`) intend.  The values 50, 50.1 and -1 behave as the claim states. -/
theorem experience_zero_falsy_bug :
    (createApplicant { janeReq with experience := 0 } "APPX1" 1 [])
      = (.badRequest "All fields are required", [])
    ∧ (createApplicant { janeReq with experience := 50 } "APPX1" 1 []).1
      = .created "APPX1" "Application submitted successfully"
    ∧ (createApplicant { janeReq with experience := 50.1 } "APPX1" 1 [])
      = (.badRequest "Experience must be between 0 and 50 years", [])
    ∧ (createApplicant { janeReq with experience := -1 } "APPX1" 1 [])
      = (.badRequest "Experience must be between 0 and 50 years", []) := by
  refine ⟨by decide, by decide, ?_, by decide⟩
  · norm_num [createApplicant, janeReq]
    decide

/-- C5 counterexample: a write-time duplicate-key failure (Mongo error code
11000, raised when the generated id collides with the store's unique
`anonymousId` index) is answered with the 500 server-error response — carrying
a duplicate-specific message — rather than with the 409 conflict path, and no
identifier is regenerated: the request simply fails. -/
theorem writeTime_duplicate_not_conflict_counterexample :
    (createApplicant bobReq "APPX1" 2 [sampleApplicant]).1
      = .serverError "Duplicate application detected. Please try again."
    ∧ (createApplicant bobReq "APPX1" 2 [sampleApplicant]).1
      ≠ .conflict "You have already applied for this position"
    ∧ (createApplicant bobReq "APPX1" 2 [sampleApplicant]).2 = [sampleApplicant] := by
  decide

/-- C5 as amended: when validation passes, the `(email, position)` pre-check
finds nothing, and the write itself fails on the `anonymousId` unique index,
the create operation returns the duplicate-specific message with HTTP status
500 — not the 409 conflict response — and leaves the store unchanged (no
identifier regeneration or retry). -/
theorem writeTime_duplicate_returns_500 (db : List Applicant) (req : SubmitReq)
    (gid : String) (now : Nat) (hval : passesValidation req)
    (hdup : db.find? (fun b => b.email == (mkApplicant req gid now).email
        && b.position == (mkApplicant req gid now).position) = none)
    (hcoll : db.any (fun b => b.anonymousId == gid) = true) :
    createApplicant req gid now db
      = (.serverError "Duplicate application detected. Please try again.", db)
    ∧ ∀ e, (createApplicant req gid now db).1 ≠ CreateResult.conflict e := by
  have h := createApplicant_duplicateKey db req gid now hval hdup hcoll
  exact ⟨h, fun e => by rw [h]; intro hc; cases hc⟩

theorem writeTime_duplicate_returns_500_witness :
    createApplicant bobReq "APPX1" 2 [sampleApplicant]
      = (.serverError "Duplicate application detected. Please try again.",
         [sampleApplicant])
    ∧ ∀ e, (createApplicant bobReq "APPX1" 2 [sampleApplicant]).1
        ≠ CreateResult.conflict e :=
  writeTime_duplicate_returns_500 [sampleApplicant] bobReq "APPX1" 2
    (by decide) (by decide) (by decide)

/-- C8 counterexample: a submission whose name is the single character `"J"`
(trimmed length 1, outside 2–100) passes the backend's validation and is
persisted with a 201 response: the backend checks the name only for presence,
never for length. -/
theorem short_name_persisted_counterexample :
    (createApplicant shortNameReq "APPX1" 1 []).1
      = .created "APPX1" "Application submitted successfully"
    ∧ mkApplicant shortNameReq "APPX1" 1 ∈ (createApplicant shortNameReq "APPX1" 1 []).2
    ∧ (mkApplicant shortNameReq "APPX1" 1).name = "J" := by
  decide

/-- C8 as amended: the create operation rejects a missing/empty name with the
400 "All fields are required" response, but enforces no length rule on the
name: any submission passing the four guards — which are independent of the
name's length — is persisted with its (trimmed) name as given, one-character
names included. -/
theorem name_checked_for_presence_only (db : List Applicant) (req : SubmitReq)
    (gid : String) (now : Nat) :
    (req.name = "" →
      createApplicant req gid now db = (.badRequest "All fields are required", db))
    ∧ (passesValidation req →
       db.find? (fun b => b.email == (mkApplicant req gid now).email
           && b.position == (mkApplicant req gid now).position) = none →
       db.any (fun b => b.anonymousId == gid) = false →
       createApplicant req gid now db
         = (.created gid "Application submitted successfully",
            db ++ [mkApplicant req gid now])
         ∧ (mkApplicant req gid now).name = strTrim req.name) := by
  constructor
  · intro h
    unfold createApplicant
    rw [if_pos (Or.inl h)]
  · intro hval hdup hfresh
    exact ⟨createApplicant_success db req gid now hval hdup hfresh, rfl⟩

theorem name_checked_for_presence_only_witness :
    createApplicant { janeReq with name := "" } "APPX1" 1 []
      = (.badRequest "All fields are required", [])
    ∧ createApplicant shortNameReq "APPX1" 1 []
      = (.created "APPX1" "Application submitted successfully",
         [mkApplicant shortNameReq "APPX1" 1])
    ∧ (mkApplicant shortNameReq "APPX1" 1).name = strTrim shortNameReq.name :=
  ⟨(name_checked_for_presence_only [] { janeReq with name := "" } "APPX1" 1).1 rfl,
   (name_checked_for_presence_only [] shortNameReq "APPX1" 1).2 (by decide) rfl rfl⟩

/-- The create route either leaves the store unchanged, or appends exactly the
new record — and in the latter case the `(email, position)` pre-check found no
existing match. -/
theorem createApplicant_state (db : List Applicant) (req : SubmitReq)
    (gid : String) (now : Nat) :
    (createApplicant req gid now db).2 = db
    ∨ ((createApplicant req gid now db).2 = db ++ [mkApplicant req gid now]
       ∧ db.find? (fun b => b.email == (mkApplicant req gid now).email
           && b.position == (mkApplicant req gid now).position) = none) := by
  simp only [createApplicant]
  split
  · left; rfl
  split
  · left; rfl
  split
  · left; rfl
  split
  · left; rfl
  split
  · left; rfl
  rename_i hnone
  split
  · left; rfl
  · right; exact ⟨rfl, hnone⟩

/-- The status route either leaves the store unchanged or rewrites it with
`updateFirstStatus`. -/
theorem updateStatus_state (db : List Applicant) (id s : String) :
    (updateStatus db id s).2 = db
    ∨ (updateStatus db id s).2 = updateFirstStatus id s db := by
  simp only [updateStatus]
  split
  · left; rfl
  split
  · left; rfl
  · right; rfl

/-- C3: The `(email, position)` pair — email stored trimmed and lower-cased,
position trimmed — is unique across stored records, the invariant is preserved
by both mutating operations (create and status update), and submitting two
applications with the same normalized pair yields success for the first and
the 409 duplicate response for the second, even when every other field
differs. -/
theorem email_position_pair_unique :
    (∀ (db : List Applicant) (req : SubmitReq) (gid : String) (now : Nat),
      pairUnique db → pairUnique (createApplicant req gid now db).2)
    ∧ (∀ (db : List Applicant) (id s : String),
      pairUnique db → pairUnique (updateStatus db id s).2)
    ∧ (∀ (db : List Applicant) (req1 req2 : SubmitReq) (gid1 gid2 : String)
        (now1 now2 : Nat),
      passesValidation req1 → passesValidation req2 →
      db.find? (fun b => b.email == (mkApplicant req1 gid1 now1).email
          && b.position == (mkApplicant req1 gid1 now1).position) = none →
      db.any (fun b => b.anonymousId == gid1) = false →
      strLower (strTrim req2.email) = strLower (strTrim req1.email) →
      strTrim req2.position = strTrim req1.position →
      createApplicant req1 gid1 now1 db
        = (.created gid1 "Application submitted successfully",
           db ++ [mkApplicant req1 gid1 now1])
      ∧ createApplicant req2 gid2 now2 (db ++ [mkApplicant req1 gid1 now1])
        = (.conflict "You have already applied for this position",
           db ++ [mkApplicant req1 gid1 now1])) := by
  refine ⟨?_, ?_, ?_⟩
  · intro db req gid now hdb
    rcases createApplicant_state db req gid now with h | ⟨h, hnone⟩
    · rw [h]; exact hdb
    · rw [h]
      unfold pairUnique at hdb ⊢
      rw [List.pairwise_append]
      refine ⟨hdb, List.pairwise_singleton _ _, ?_⟩
      intro x hx y hy
      rw [List.mem_singleton] at hy
      subst hy
      have hne := List.find?_eq_none.mp hnone x hx
      simp only [Bool.and_eq_true, beq_iff_eq, not_and] at hne
      rintro ⟨he, hp⟩
      exact hne he hp
  · intro db id s hdb
    rcases updateStatus_state db id s with h | h
    · rw [h]; exact hdb
    · rw [h]; exact pairUnique_updateFirstStatus id s db hdb
  · intro db req1 req2 gid1 gid2 now1 now2 hval1 hval2 hdup1 hfresh1 he hp
    refine ⟨createApplicant_success db req1 gid1 now1 hval1 hdup1 hfresh1, ?_⟩
    have hpe : (mkApplicant req2 gid2 now2).email = (mkApplicant req1 gid1 now1).email := by
      simp [mkApplicant, he]
    have hpp : (mkApplicant req2 gid2 now2).position
        = (mkApplicant req1 gid1 now1).position := by
      simp [mkApplicant, hp]
    have hfind : (db ++ [mkApplicant req1 gid1 now1]).find?
        (fun b => b.email == (mkApplicant req2 gid2 now2).email
          && b.position == (mkApplicant req2 gid2 now2).position)
        = some (mkApplicant req1 gid1 now1) := by
      simp only [hpe, hpp, List.find?_append, hdup1, Option.none_or]
      simp [List.find?]
    exact createApplicant_conflict (db ++ [mkApplicant req1 gid1 now1]) req2 gid2 now2
      hval2 (mkApplicant req1 gid1 now1) hfind

theorem email_position_pair_unique_witness :
    createApplicant janeReq "APPX1" 1 []
      = (.created "APPX1" "Application submitted successfully",
         [mkApplicant janeReq "APPX1" 1])
    ∧ createApplicant janeDupReq "APPX2" 2 ([] ++ [mkApplicant janeReq "APPX1" 1])
      = (.conflict "You have already applied for this position",
         [] ++ [mkApplicant janeReq "APPX1" 1]) :=
  email_position_pair_unique.2.2 [] janeReq janeDupReq "APPX1" "APPX2" 1 2
    (by decide) (by decide) rfl rfl (by decide) (by decide)

/-- C9: Frame property of the status update: for every store and every stored
`anonymousId`, updating with a valid status answers 200 with
`{anonymousId, status}`, keeps the store's length, keeps every non-`status`
field of every record, leaves records with a different `anonymousId` entirely
unchanged, and any changed `status` equals the new value. -/
theorem updateStatus_changes_only_status (db : List Applicant) (id s : String)
    (hs : s ∈ validStatuses) (hex : ∃ a ∈ db, a.anonymousId = id) :
    (updateStatus db id s).1 = .ok id s "Status updated successfully"
    ∧ (updateStatus db id s).2.length = db.length
    ∧ ∀ (i : Nat) (a a' : Applicant), db[i]? = some a →
        (updateStatus db id s).2[i]? = some a' →
        (a'.anonymousId = a.anonymousId ∧ a'.name = a.name ∧ a'.email = a.email
          ∧ a'.phone = a.phone ∧ a'.position = a.position
          ∧ a'.experience = a.experience ∧ a'.skills = a.skills
          ∧ a'.education = a.education ∧ a'.submittedAt = a.submittedAt)
        ∧ (a.anonymousId ≠ id → a' = a)
        ∧ (a'.status = a.status ∨ a'.status = s) := by
  have hcond : ¬ (s = "" ∨ s ∉ validStatuses) := by
    rintro (rfl | h)
    · exact absurd hs (by decide)
    · exact h hs
  obtain ⟨a0, ha0, hid⟩ := hex
  have hsome : (db.find? (fun b => b.anonymousId == id)).isSome :=
    List.find?_isSome.mpr ⟨a0, ha0, by simp [hid]⟩
  obtain ⟨b, hb⟩ := Option.isSome_iff_exists.mp hsome
  have hbid : b.anonymousId = id := by
    have := List.find?_some hb
    simpa using this
  have hres : updateStatus db id s
      = (.ok b.anonymousId s "Status updated successfully", updateFirstStatus id s db) := by
    unfold updateStatus
    rw [if_neg hcond, hb]
  rw [hres]
  refine ⟨by rw [hbid], updateFirstStatus_length id s db, ?_⟩
  intro i a a' ha ha'
  exact updateFirstStatus_frame id s db i a a' ha ha'

theorem updateStatus_changes_only_status_witness :
    (updateStatus [sampleApplicant] "APPX1" "reviewed").1
      = .ok "APPX1" "reviewed" "Status updated successfully"
    ∧ (updateStatus [sampleApplicant] "APPX1" "reviewed").2.length
      = ([sampleApplicant] : List Applicant).length := by
  obtain ⟨h1, h2, -⟩ := updateStatus_changes_only_status [sampleApplicant] "APPX1" "reviewed"
    (by decide) ⟨sampleApplicant, by simp, rfl⟩
  exact ⟨h1, h2⟩

/-- C7: For every list request the effective page is `max(1, requested page)`
with default 1 and the effective limit is clamped into `[1, 50]` with default
10; requesting a page beyond `totalPages` returns an empty item list with
`hasNext: false`. -/
theorem listApplicants_pagination_contract (db : List Applicant)
    (pos : Option String) (minE maxE : Option ℚ) (sk : Option String)
    (page limit : Option Int) :
    (listApplicants db pos minE maxE sk page limit).pagination.page
      = max 1 (page.getD 1)
    ∧ (listApplicants db pos minE maxE sk page limit).pagination.limit
      = min 50 (max 1 (limit.getD 10))
    ∧ (1 : Int) ≤ (listApplicants db pos minE maxE sk page limit).pagination.page
    ∧ (1 : Int) ≤ (listApplicants db pos minE maxE sk page limit).pagination.limit
    ∧ (listApplicants db pos minE maxE sk page limit).pagination.limit ≤ 50
    ∧ (((listApplicants db pos minE maxE sk page limit).pagination.totalPages : Int)
        < max 1 (page.getD 1) →
      (listApplicants db pos minE maxE sk page limit).data = []
      ∧ (listApplicants db pos minE maxE sk page limit).pagination.hasNext = false) := by
  simp only [listApplicants]
  refine ⟨trivial, trivial, le_max_left 1 _, le_min (by norm_num) (le_max_left 1 _), min_le_left _ _, ?_⟩
  intro h
  constructor
  · -- the skipped prefix covers the whole result set
    have hL1 : (1 : Int) ≤ min 50 (max 1 (limit.getD 10)) :=
      le_min (by norm_num) (le_max_left 1 _)
    have hP1 : (1 : Int) ≤ max 1 (page.getD 1) := le_max_left 1 _
    have hLnat : 1 ≤ (min 50 (max 1 (limit.getD 10))).toNat := by omega
    have key1 := le_ceil_mul (db.filter (matchesFilter pos minE maxE sk)).length
      (min 50 (max 1 (limit.getD 10))).toNat (by omega)
    have hTle : ((((db.filter (matchesFilter pos minE maxE sk)).length
          + (min 50 (max 1 (limit.getD 10))).toNat - 1)
          / (min 50 (max 1 (limit.getD 10))).toNat : Nat) : Int)
        ≤ max 1 (page.getD 1) - 1 := by omega
    have key2 : ((((db.filter (matchesFilter pos minE maxE sk)).length
          + (min 50 (max 1 (limit.getD 10))).toNat - 1)
          / (min 50 (max 1 (limit.getD 10))).toNat : Nat) : Int)
          * (min 50 (max 1 (limit.getD 10)))
        ≤ (max 1 (page.getD 1) - 1) * (min 50 (max 1 (limit.getD 10))) :=
      mul_le_mul_of_nonneg_right hTle (by omega)
    have key3 : (((db.filter (matchesFilter pos minE maxE sk)).length
          + (min 50 (max 1 (limit.getD 10))).toNat - 1)
          / (min 50 (max 1 (limit.getD 10))).toNat)
          * (min 50 (max 1 (limit.getD 10))).toNat
        ≤ ((max 1 (page.getD 1) - 1) * (min 50 (max 1 (limit.getD 10)))).toNat := by
      have hcast : ((((db.filter (matchesFilter pos minE maxE sk)).length
            + (min 50 (max 1 (limit.getD 10))).toNat - 1)
            / (min 50 (max 1 (limit.getD 10))).toNat
            * (min 50 (max 1 (limit.getD 10))).toNat : Nat) : Int)
          = ((((db.filter (matchesFilter pos minE maxE sk)).length
            + (min 50 (max 1 (limit.getD 10))).toNat - 1)
            / (min 50 (max 1 (limit.getD 10))).toNat : Nat) : Int)
            * (min 50 (max 1 (limit.getD 10))) := by
        push_cast
        rw [Int.toNat_of_nonneg (by omega)]
      omega
    have hlen : ((sortDesc (db.filter (matchesFilter pos minE maxE sk))).length)
        ≤ ((max 1 (page.getD 1) - 1) * (min 50 (max 1 (limit.getD 10)))).toNat := by
      rw [sortDesc_length]
      exact le_trans key1 key3
    rw [List.drop_eq_nil_of_le hlen, List.take_nil, List.map_nil]
  · simp only [decide_eq_false_iff_not]
    omega

theorem listApplicants_pagination_contract_witness :
    (listApplicants [sampleApplicant] none none none none (some 0) (some 1000)).pagination.page
      = 1
    ∧ (listApplicants [sampleApplicant] none none none none (some 0) (some 1000)).pagination.limit
      = 50
    ∧ (listApplicants [sampleApplicant] none none none none (some 99) none).data = []
    ∧ (listApplicants [sampleApplicant] none none none none (some 99) none).pagination.hasNext
      = false := by
  have h1 := (listApplicants_pagination_contract [sampleApplicant] none none none none
    (some 0) (some 1000)).1
  have h2 := (listApplicants_pagination_contract [sampleApplicant] none none none none
    (some 0) (some 1000)).2.1
  have h3 := (listApplicants_pagination_contract [sampleApplicant] none none none none
    (some 99) none).2.2.2.2.2 (by decide)
  exact ⟨by simpa using h1, by simpa using h2, h3.1, h3.2⟩

/-- C6: Round trip.  After a successful submission, listing with a position
filter equal to the new record's stored position includes the record's
anonymized view (it has the newest `submittedAt`, so it heads page 1), and
revealing the returned `anonymousId` yields exactly the submission's name,
email, and phone up to trimming and email lower-casing. -/
theorem submit_list_reveal_roundtrip (db : List Applicant) (req : SubmitReq)
    (gid : String) (now : Nat) (hval : passesValidation req)
    (hdup : db.find? (fun b => b.email == (mkApplicant req gid now).email
        && b.position == (mkApplicant req gid now).position) = none)
    (hfresh : db.any (fun b => b.anonymousId == gid) = false)
    (hnow : ∀ b ∈ db, b.submittedAt < now) :
    createApplicant req gid now db
      = (.created gid "Application submitted successfully",
         db ++ [mkApplicant req gid now])
    ∧ anonView (mkApplicant req gid now)
        ∈ (listApplicants (db ++ [mkApplicant req gid now])
            (some (mkApplicant req gid now).position) none none none none none).data
    ∧ getContact (db ++ [mkApplicant req gid now]) gid
        = .found (contactView (mkApplicant req gid now))
    ∧ (mkApplicant req gid now).name = strTrim req.name
    ∧ (mkApplicant req gid now).email = strLower (strTrim req.email)
    ∧ (mkApplicant req gid now).phone = strTrim req.phone := by
  refine ⟨createApplicant_success db req gid now hval hdup hfresh, ?_, ?_, rfl, rfl, rfl⟩
  · -- membership in the filtered first page
    have hPr : matchesFilter (some (mkApplicant req gid now).position) none none none
        (mkApplicant req gid now) = true := by
      simp [matchesFilter, containsCI_self]
    have hfil : (db ++ [mkApplicant req gid now]).filter
        (matchesFilter (some (mkApplicant req gid now).position) none none none)
        = db.filter (matchesFilter (some (mkApplicant req gid now).position) none none none)
          ++ [mkApplicant req gid now] := by
      rw [List.filter_append]
      congr 1
      simp [List.filter, hPr]
    have hsorted : sortDesc ((db ++ [mkApplicant req gid now]).filter
        (matchesFilter (some (mkApplicant req gid now).position) none none none))
        = mkApplicant req gid now
          :: sortDesc (db.filter
            (matchesFilter (some (mkApplicant req gid now).position) none none none)) := by
      rw [hfil]
      refine sortDesc_append_newest _ _ ?_
      intro b hb
      exact hnow b (List.mem_of_mem_filter hb)
    simp only [listApplicants, hsorted]
    norm_num
    have htake : List.take (Int.toNat 10)
        (anonView (mkApplicant req gid now)
          :: List.map anonView (sortDesc (db.filter
            (matchesFilter (some (mkApplicant req gid now).position) none none none))))
        = anonView (mkApplicant req gid now)
          :: (List.map anonView (sortDesc (db.filter
            (matchesFilter (some (mkApplicant req gid now).position) none none none)))).take 9 :=
      rfl
    rw [htake]
    exact List.mem_cons_self _ _
  · -- the reveal finds exactly the fresh record
    have hnone : db.find? (fun a => a.anonymousId == gid) = none :=
      List.find?_eq_none.mpr (fun x hx => by
        simp [List.any_eq_false.mp hfresh x hx])
    have hone : ([mkApplicant req gid now].find? (fun a => a.anonymousId == gid))
        = some (mkApplicant req gid now) := by
      simp [List.find?, mkApplicant]
    have hfind : (db ++ [mkApplicant req gid now]).find? (fun a => a.anonymousId == gid)
        = some (mkApplicant req gid now) := by
      rw [List.find?_append, hnone, hone, Option.none_or]
    unfold getContact
    rw [hfind]

theorem submit_list_reveal_roundtrip_witness :
    createApplicant janeReq "APPX1" 1 []
      = (.created "APPX1" "Application submitted successfully",
         [mkApplicant janeReq "APPX1" 1])
    ∧ anonView (mkApplicant janeReq "APPX1" 1)
        ∈ (listApplicants [mkApplicant janeReq "APPX1" 1]
            (some (mkApplicant janeReq "APPX1" 1).position) none none none none none).data
    ∧ getContact [mkApplicant janeReq "APPX1" 1] "APPX1"
        = .found (contactView (mkApplicant janeReq "APPX1" 1))
    ∧ (mkApplicant janeReq "APPX1" 1).name = strTrim janeReq.name
    ∧ (mkApplicant janeReq "APPX1" 1).email = strLower (strTrim janeReq.email)
    ∧ (mkApplicant janeReq "APPX1" 1).phone = strTrim janeReq.phone :=
  submit_list_reveal_roundtrip [] janeReq "APPX1" 1 (by decide) rfl rfl
    (by intro b hb; cases hb)
